import Mathlib

/-!
Verification of `wifiphisher/common/phishingpage.py` (hackwifi repository).

The module is shallowly embedded: the descriptor file system is an
association list from path to structured descriptor, the asset file system
is a record of existing regular files (with a set of paths whose deletion
fails, modelling OSError from `os.remove`), and each Python method becomes
a pure Lean function threading that state.  Python exceptions become
`Except Err`; state reached before an exception is raised is returned next
to the error, mirroring the fact that a raising Python call leaves its
earlier side effects in place.
-/

namespace Hackwifi

/-! Section: posixpath helpers used by the module
`os.path.dirname`, `os.path.basename` and the two-argument `os.path.join`,
with the POSIX separator, following the CPython `posixpath` algorithms. -/

/-- Test that `pre` is a prefix of `s` (the meaning of Python
`s.startswith(pre)`),
computed on the character lists so that it reduces in the kernel. -/
def strStartsWith (s pre : String) : Bool := pre.data.isPrefixOf s.data

/-- Test that `suf` is a suffix of `s` (the meaning of Python
`s.endswith(suf)`). -/
def strEndsWith (s suf : String) : Bool :=
  suf.data.reverse.isPrefixOf s.data.reverse

/-- Python truthiness of a string: empty means falsy. -/
def strIsEmpty (s : String) : Bool := s.data.isEmpty

/-- Python `str.lower()` on the character list. -/
def strToLower (s : String) : String := String.mk (s.data.map Char.toLower)

def rfindSlash : List Char → Option Nat
  | [] => none
  | c :: cs =>
    match rfindSlash cs with
    | some i => some (i + 1)
    | none => if c = '/' then some 0 else none

def rstripSlash (cs : List Char) : List Char :=
  (cs.reverse.dropWhile (fun c => c = '/')).reverse

def os_path_dirname (p : String) : String :=
  match rfindSlash p.data with
  | none => ""
  | some j =>
    let head := p.data.take (j + 1)
    if head.all (fun c => c = '/') then String.mk head
    else String.mk (rstripSlash head)

def os_path_basename (p : String) : String :=
  match rfindSlash p.data with
  | none => p
  | some j => String.mk (p.data.drop (j + 1))

def os_path_join (a b : String) : String :=
  if strStartsWith b "/" then b
  else if a = "" || strEndsWith a "/" then a ++ b
  else a ++ "/" ++ b

/-! Section: Python dict on association lists
`dictSet l k v` is `l[k] = v`: replace the binding of `k` (association
lists built here keep keys distinct, as Python dicts do) or append a fresh
one.  `dictUpdate d other` is `d.update(other)`. -/

def dictSet {α : Type} : List (String × α) → String → α → List (String × α)
  | [], k, v => [(k, v)]
  | kv :: rest, k, v =>
    if kv.1 = k then (k, v) :: rest else kv :: dictSet rest k v

def dictUpdate {α : Type} (d other : List (String × α)) : List (String × α) :=
  other.foldl (fun acc kv => dictSet acc kv.1 kv.2) d

/-! Section: Descriptors and the descriptor file system
A descriptor (`config.ini`) is a list of sections, each an association
list of options; `ConfigParser` stores option names lower-cased and with
distinct keys, which the embedding inherits.  `config_section_map` follows
the source: a missing file or missing section yields the empty mapping. -/

abbrev ConfigSection := List (String × String)

structure Descriptor where
  sections : List (String × ConfigSection)
  deriving DecidableEq, Repr

abbrev ConfigFS := List (String × Descriptor)

def readConfig (fs : ConfigFS) (path : String) : Descriptor :=
  (fs.lookup path).getD ⟨[]⟩

def config_section_map (fs : ConfigFS) (config_file sectionName : String) :
    ConfigSection :=
  ((readConfig fs config_file).sections.lookup sectionName).getD []

/-! Section: Errors and Python truthiness -/

inductive Err where
  | noSection
  | noOption
  | keyError
  | ioError
  | attributeError
  | osError
  deriving DecidableEq, Repr

/-- The value of `self._payload`: the Python literal `False` or a string. -/
inductive PyVal where
  | pyFalse
  | pyStr (s : String)
  deriving DecidableEq, Repr

/-- Python `bool(...)` on a `_payload` value: `False` and `""` are falsy. -/
def PyVal.truthy : PyVal → Bool
  | .pyFalse => false
  | .pyStr s => !s.data.isEmpty

/-! Section: PhishingTemplate -/

structure PhishingTemplate where
  _name : String
  display_name : String
  _description : String
  _payload : PyVal
  _config_path : String
  path : String
  static_path : String
  context : ConfigSection
  _context : Option ConfigSection
  _extra_files : List String
  deriving DecidableEq, Repr

/-- Embedding of `PhishingTemplate.__init__`.  Here `pagesDir` stands for
`constants.PHISHING_PAGES_DIR`, `htmlDir` for `constants.SCENARIO_HTML_DIR`.
`info['name']` / `info['description']` raise `KeyError` when absent.  Note
that `__init__` assigns `self.context` and never `self._context`; the
latter is recorded as `none` (attribute not present). -/
def PhishingTemplate.init (pagesDir htmlDir name : String) (fs : ConfigFS) :
    Except Err PhishingTemplate :=
  let config_path := os_path_join (os_path_join pagesDir name) "config.ini"
  let info := config_section_map fs config_path "info"
  match info.lookup "name" with
  | none => .error .keyError
  | some dn =>
    match info.lookup "description" with
    | none => .error .keyError
    | some desc =>
      .ok {
        _name := name
        display_name := dn
        _description := desc
        _payload :=
          match info.lookup "payloadpath" with
          | some v => .pyStr v
          | none => .pyFalse
        _config_path := os_path_join (os_path_join pagesDir name) "config.ini"
        path := os_path_join (os_path_join pagesDir (strToLower name)) htmlDir
        static_path :=
          os_path_join
            (os_path_join (os_path_join pagesDir (strToLower name)) htmlDir)
            "static"
        context := config_section_map fs config_path "context"
        _context := none
        _extra_files := [] }

def get_payload_path (t : PhishingTemplate) : PyVal := t._payload

def has_payload (t : PhishingTemplate) : Bool := t._payload.truthy

/-- Embedding of `PhishingTemplate.merge_context`:
`context.update(self._context)` then
`self._context = context`.  Accessing `self._context` raises
`AttributeError` when the attribute was never assigned.  The merged
mapping is returned as well, since the caller's dict is mutated in place
in the source. -/
def merge_context (t : PhishingTemplate) (context : ConfigSection) :
    Except Err (PhishingTemplate × ConfigSection) :=
  match t._context with
  | none => .error .attributeError
  | some cur =>
    let merged := dictUpdate context cur
    .ok ({ t with _context := some merged }, merged)

/-- Embedding of `PhishingTemplate.update_config_file`.  Reading a missing `info`
section raises `NoSectionError` from `original_config.options('info')`;
`original_config.get('context', 'update_path')` raises `NoSectionError` /
`NoOptionError`.  The persist step is `open(config_path, 'wb')` followed
by `config.write`: the open truncates the original file in place, so
`writeFails = true` (an I/O failure between the truncating open and a
completed write) leaves an empty descriptor at `config_path`. -/
def update_config_file (payload_filename config_path : String)
    (writeFails : Bool) (fs : ConfigFS) : ConfigFS × Except Err Unit :=
  let original := readConfig fs config_path
  match original.sections.lookup "info" with
  | none => (fs, .error .noSection)
  | some infoOpts =>
    let newInfo := infoOpts.map (fun kv =>
      if kv.1 ≠ "payloadpath" then kv
      else (kv.1, os_path_join (os_path_dirname kv.2) payload_filename))
    match original.sections.lookup "context" with
    | none => (fs, .error .noSection)
    | some ctxOpts =>
      match ctxOpts.lookup "update_path" with
      | none => (fs, .error .noOption)
      | some up =>
        let newDesc : Descriptor :=
          ⟨[("info", newInfo),
            ("context",
              [("update_path",
                os_path_join (os_path_dirname up) payload_filename)])]⟩
        if writeFails then (dictSet fs config_path ⟨[]⟩, .error .ioError)
        else (dictSet fs config_path newDesc, .ok ())

/-- Embedding of `PhishingTemplate.update_payload_path`.  A raising
`update_config_file` propagates before any of the `self.*` assignments
run, so the returned template equals the input one on every error. -/
def update_payload_path (t : PhishingTemplate) (filename : String)
    (writeFails : Bool) (fs : ConfigFS) :
    PhishingTemplate × ConfigFS × Except Err Unit :=
  match update_config_file filename t._config_path writeFails fs with
  | (fs1, .error e) => (t, fs1, .error e)
  | (fs1, .ok _) =>
    let info := config_section_map fs1 t._config_path "info"
    ({ t with
        _payload :=
          match info.lookup "payloadpath" with
          | some v => .pyStr v
          | none => .pyFalse
        _context := some (config_section_map fs1 t._config_path "context")
        _extra_files := [] }, fs1, .ok ())

/-! Section: The asset file system: `os.path.isfile`, `os.remove`,
`shutil.copyfile`.  `undeletable` holds the paths on which `os.remove`
raises an `OSError` (for instance a permission failure). -/

structure FileSys where
  files : List String
  undeletable : List String
  deriving DecidableEq, Repr

def os_isfile (fs : FileSys) (p : String) : Bool := fs.files.contains p

def os_remove (fs : FileSys) (p : String) : Except Err FileSys :=
  if !os_isfile fs p then .error .osError
  else if fs.undeletable.contains p then .error .osError
  else .ok { fs with files := fs.files.erase p }

def copyfile (fs : FileSys) (src dst : String) : FileSys :=
  { fs with
    files := if fs.files.contains dst then fs.files else fs.files ++ [dst] }

/-- Embedding of `PhishingTemplate.use_file`: `if path and os.path.isfile(path)` then
copy to `self.static_path + filename` (plain string concatenation in the
source), record that destination in `self._extra_files` and return the
base filename; otherwise fall through and return `None`. -/
def use_file (t : PhishingTemplate) (fs : FileSys) (path : String) :
    PhishingTemplate × FileSys × Option String :=
  if !strIsEmpty path && os_isfile fs path then
    let filename := os_path_basename path
    let fs1 := copyfile fs path (t.static_path ++ filename)
    ({ t with _extra_files := t._extra_files ++ [t.static_path ++ filename] },
      fs1, some filename)
  else (t, fs, none)

def remove_files_go : List String → FileSys → FileSys × Except Err Unit
  | [], fs => (fs, .ok ())
  | filename :: rest, fs =>
    if os_isfile fs filename then
      match os_remove fs filename with
      | .error e => (fs, .error e)
      | .ok fs1 => remove_files_go rest fs1
    else remove_files_go rest fs

/-- Embedding of `PhishingTemplate.remove_extra_files`: delete each `_extra_files`
entry that is still a file; a raising `os.remove` aborts the loop.  The
method never assigns `self._extra_files`, so the template is returned
unchanged. -/
def remove_extra_files (t : PhishingTemplate) (fs : FileSys) :
    PhishingTemplate × FileSys × Except Err Unit :=
  (t, remove_files_go t._extra_files fs)

/-- Embedding of `TemplateManager.on_exit`: `remove_extra_files` on every stored
template; an exception from one propagates out of the loop. -/
def on_exit : List (String × PhishingTemplate) → FileSys → FileSys × Except Err Unit
  | [], fs => (fs, .ok ())
  | (_, t) :: rest, fs =>
    match remove_extra_files t fs with
    | (_, fs1, .ok _) => on_exit rest fs1
    | (_, fs1, .error e) => (fs1, .error e)

/-! Section: The registry: validation and discovery
`Dirs` maps each listable directory path to its entry list; `none` means
`os.listdir` raises `OSError` there and `os.path.isdir` is false. -/

abbrev Dirs := String → Option (List String)

/-- Embedding of `TemplateManager.is_valid_template`.  The first `os.listdir` is
unguarded; the second sits in a `try/except OSError`. -/
def is_valid_template (dirs : Dirs) (template_directory name html_dir : String) :
    Except Err (Bool × String) :=
  let dir_path := os_path_join template_directory name
  match dirs dir_path with
  | none => .error .osError
  | some entries =>
    if !(entries.contains "config.ini") then
      .ok (false, "Configuration file not found in: ")
    else
      match dirs (os_path_join dir_path html_dir) with
      | none => .ok (false, "No " ++ html_dir ++ " directory found in: ")
      | some tdir =>
        if tdir.any (fun tfile => strEndsWith tfile ".html") then .ok (true, name)
        else .ok (false, "No HTML files found in: ")

def find_user_go (dirs : Dirs) (templates : List (String × PhishingTemplate))
    (td hd : String) : List String → List String → Except Err (List String)
  | [], acc => .ok acc
  | name :: rest, acc =>
    if (dirs (os_path_join td name)).isSome && (templates.lookup name).isNone then
      match is_valid_template dirs td name hd with
      | .error e => .error e
      | .ok (true, _) => find_user_go dirs templates td hd rest (acc ++ [name])
      | .ok (false, _) => find_user_go dirs templates td hd rest acc
    else find_user_go dirs templates td hd rest acc

/-- Embedding of `TemplateManager.find_user_templates`: scan the root listing, keeping
entries that are directories, are not yet keys of `templates`, and pass
the validator; an invalid entry is only reported on the diagnostic
channel and the scan continues. -/
def find_user_templates (dirs : Dirs)
    (templates : List (String × PhishingTemplate)) (td hd : String) :
    Except Err (List String) :=
  match dirs td with
  | none => .error .osError
  | some names => find_user_go dirs templates td hd names []

def add_user_go (td hd : String) (cfs : ConfigFS) :
    List String → List (String × PhishingTemplate) →
    Except Err (List (String × PhishingTemplate))
  | [], ts => .ok ts
  | name :: rest, ts =>
    match PhishingTemplate.init td hd name cfs with
    | .error e => .error e
    | .ok t => add_user_go td hd cfs rest (dictSet ts name t)

/-- Embedding of `TemplateManager.add_user_templates`: construct a `PhishingTemplate`
for every name found by `find_user_templates` and store it. -/
def add_user_templates (dirs : Dirs) (cfs : ConfigFS)
    (templates : List (String × PhishingTemplate)) (td hd : String) :
    Except Err (List (String × PhishingTemplate)) :=
  match find_user_templates dirs templates td hd with
  | .error e => .error e
  | .ok user => add_user_go td hd cfs user templates

/-! Section: Concrete instances used to exhibit behaviour -/

/-- A descriptor file system holding one complete template descriptor. -/
def fsC1 : ConfigFS :=
  [("/pages/demo1/config.ini",
    ⟨[("info",
        [("name", "Demo1"), ("description", "d"), ("payloadpath", "/pl/old.exe")]),
      ("context", [("update_path", "/up/old.exe")])]⟩)]

/-- The template entity loaded from `fsC1`. -/
def tC1 : PhishingTemplate :=
  { _name := "demo1", display_name := "Demo1", _description := "d",
    _payload := .pyStr "/pl/old.exe",
    _config_path := "/pages/demo1/config.ini",
    path := "/pages/demo1/html",
    static_path := "/pages/demo1/html/static",
    context := [("update_path", "/up/old.exe")],
    _context := none, _extra_files := [] }

/-- A descriptor whose `context` has no `update_path` is not needed here;
`fsC2` holds a descriptor without `payloadpath`, with context `{a: 1}`. -/
def fsC2 : ConfigFS :=
  [("/pages/demo2/config.ini",
    ⟨[("info", [("name", "Demo2"), ("description", "d")]),
      ("context", [("a", "1")])]⟩)]

/-- The template entity loaded from `fsC2`: payload absent, context
`{a: 1}` stored in `context`, `_context` never assigned. -/
def tC2 : PhishingTemplate :=
  { _name := "demo2", display_name := "Demo2", _description := "d",
    _payload := .pyFalse,
    _config_path := "/pages/demo2/config.ini",
    path := "/pages/demo2/html",
    static_path := "/pages/demo2/html/static",
    context := [("a", "1")],
    _context := none, _extra_files := [] }

/-- An entity whose static asset directory is `/pages/demo3/html/static`. -/
def tC3 : PhishingTemplate :=
  { _name := "demo3", display_name := "Demo3", _description := "d",
    _payload := .pyFalse,
    _config_path := "/pages/demo3/config.ini",
    path := "/pages/demo3/html",
    static_path := "/pages/demo3/html/static",
    context := [], _context := none, _extra_files := [] }

/-- An asset file system holding one regular file to stage. -/
def fsC3 : FileSys := { files := ["/tmp/payload.exe"], undeletable := [] }

/-- A descriptor whose `info` lacks `payloadpath` while `context` has
`update_path`. -/
def fsC4 : ConfigFS :=
  [("/pages/demo4/config.ini",
    ⟨[("info", [("name", "Demo4"), ("description", "d")]),
      ("context", [("update_path", "/up/old.exe")])]⟩)]

/-- A complete descriptor for the round-trip claim. -/
def fsC5 : ConfigFS :=
  [("/pages/demo5/config.ini",
    ⟨[("info",
        [("name", "Demo5"), ("description", "d"), ("payloadpath", "/pl/old.exe")]),
      ("context", [("update_path", "/up/old.exe")])]⟩)]

/-- The template entity loaded from `fsC5`. -/
def tC5 : PhishingTemplate :=
  { _name := "demo5", display_name := "Demo5", _description := "d",
    _payload := .pyStr "/pl/old.exe",
    _config_path := "/pages/demo5/config.ini",
    path := "/pages/demo5/html",
    static_path := "/pages/demo5/html/static",
    context := [("update_path", "/up/old.exe")],
    _context := none, _extra_files := [] }

/-- A fresh entity about to stage one file. -/
def tC6 : PhishingTemplate :=
  { _name := "demo6", display_name := "Demo6", _description := "d",
    _payload := .pyFalse,
    _config_path := "/pages/demo6/config.ini",
    path := "/pages/demo6/html",
    static_path := "/pages/demo6/html/static",
    context := [], _context := none, _extra_files := [] }

/-- An asset file system for the staging / cleanup round. -/
def fsC6 : FileSys := { files := ["/tmp/extra.bin"], undeletable := [] }

/-- Directory layout with a fully valid template `tpl`. -/
def dirsC7 : Dirs := fun s =>
  if s = "/root/tpl" then some ["config.ini", "html"]
  else if s = "/root/tpl/html" then some ["index.html"]
  else none

/-- Registry scan layout: root lists `foo` (already registered) and `bar`
(a valid new template). -/
def dirsC8 : Dirs := fun s =>
  if s = "/root" then some ["foo", "bar"]
  else if s = "/root/foo" then some ["config.ini", "html"]
  else if s = "/root/foo/html" then some ["index.html"]
  else if s = "/root/bar" then some ["config.ini", "html"]
  else if s = "/root/bar/html" then some ["index.html"]
  else none

/-- Descriptor file system for the `bar` template of `dirsC8`. -/
def cfsC8 : ConfigFS :=
  [("/root/bar/config.ini",
    ⟨[("info", [("name", "Bar"), ("description", "b")]),
      ("context", [])]⟩)]

/-- The entity already registered under `foo`. -/
def eC8 : PhishingTemplate :=
  { _name := "foo", display_name := "Foo", _description := "f",
    _payload := .pyFalse,
    _config_path := "/root/foo/config.ini",
    path := "/root/foo/html",
    static_path := "/root/foo/html/static",
    context := [], _context := none, _extra_files := [] }

/-- The entity `add_user_templates` constructs for `bar`. -/
def barC8 : PhishingTemplate :=
  { _name := "bar", display_name := "Bar", _description := "b",
    _payload := .pyFalse,
    _config_path := "/root/bar/config.ini",
    path := "/root/bar/html",
    static_path := "/root/bar/html/static",
    context := [], _context := none, _extra_files := [] }

/-- An entity whose single staged file cannot be deleted. -/
def e1C9 : PhishingTemplate :=
  { _name := "t1", display_name := "T1", _description := "d",
    _payload := .pyFalse,
    _config_path := "/root/t1/config.ini",
    path := "/root/t1/html",
    static_path := "/root/t1/html/static",
    context := [], _context := none, _extra_files := ["/s/a"] }

/-- An entity whose single staged file is deletable. -/
def e2C9 : PhishingTemplate :=
  { _name := "t2", display_name := "T2", _description := "d",
    _payload := .pyFalse,
    _config_path := "/root/t2/config.ini",
    path := "/root/t2/html",
    static_path := "/root/t2/html/static",
    context := [], _context := none, _extra_files := ["/s/b"] }

/-- An entity with an undeletable staged file followed by a deletable one. -/
def e3C9 : PhishingTemplate :=
  { _name := "t3", display_name := "T3", _description := "d",
    _payload := .pyFalse,
    _config_path := "/root/t3/config.ini",
    path := "/root/t3/html",
    static_path := "/root/t3/html/static",
    context := [], _context := none, _extra_files := ["/s/a", "/s/c"] }

/-- Asset file system where deleting `/s/a` raises. -/
def fsC9 : FileSys := { files := ["/s/a", "/s/b"], undeletable := ["/s/a"] }

/-- A descriptor whose `payloadpath` key is present but empty. -/
def fsC10 : ConfigFS :=
  [("/pages/demo10/config.ini",
    ⟨[("info",
        [("name", "Demo10"), ("description", "d"), ("payloadpath", "")]),
      ("context", [])]⟩)]

/-- The template entity loaded from `fsC10`. -/
def tC10 : PhishingTemplate :=
  { _name := "demo10", display_name := "Demo10", _description := "d",
    _payload := .pyStr "",
    _config_path := "/pages/demo10/config.ini",
    path := "/pages/demo10/html",
    static_path := "/pages/demo10/html/static",
    context := [], _context := none, _extra_files := [] }

/-- Asset file system for the within-one-entity variant. -/
def fsC9b : FileSys := { files := ["/s/a", "/s/c"], undeletable := ["/s/a"] }

/-! Section: Helper lemmas on the dict and path operations -/

theorem lookup_dictSet {α : Type} (l : List (String × α)) (k : String) (v : α) :
    (dictSet l k v).lookup k = some v := by
  induction l with
  | nil => simp [dictSet]
  | cons kv rest ih =>
    obtain ⟨a, b⟩ := kv
    by_cases h : a = k
    · subst h; simp [dictSet]
    · simp only [dictSet, h, if_false, List.lookup_cons]
      rw [show (k == a) = false by simp [Ne.symm h]]
      exact ih

theorem lookup_dictSet_ne {α : Type} (l : List (String × α)) {k q : String}
    (v : α) (h : q ≠ k) : (dictSet l k v).lookup q = l.lookup q := by
  induction l with
  | nil => simp [dictSet, List.lookup_cons, show (q == k) = false by simp [h]]
  | cons kv rest ih =>
    obtain ⟨a, b⟩ := kv
    by_cases ha : a = k
    · subst ha
      simp [dictSet, List.lookup_cons, show (q == a) = false by simp [h]]
    · simp only [dictSet, ha, if_false, List.lookup_cons]
      cases hqa : (q == a) with
      | true => rfl
      | false => exact ih

theorem lookup_eq_none_iff {α : Type} (l : List (String × α)) (k : String) :
    l.lookup k = none ↔ k ∉ l.map Prod.fst := by
  induction l with
  | nil => simp
  | cons kv rest ih =>
    obtain ⟨a, b⟩ := kv
    by_cases h : k = a
    · subst h; simp
    · simp [List.lookup_cons, show (k == a) = false by simp [h], ih, h]

theorem lookup_cons_ne {α : Type} {a k : String} {b : α}
    {es : List (String × α)} (h : k ≠ a) :
    ((a, b) :: es).lookup k = es.lookup k := by
  simp [List.lookup_cons, show (k == a) = false by simp [h]]

theorem keys_dictSet {α : Type} (l : List (String × α)) (k : String) (v : α) :
    (dictSet l k v).map Prod.fst
      = if k ∈ l.map Prod.fst then l.map Prod.fst else l.map Prod.fst ++ [k] := by
  induction l with
  | nil => simp [dictSet]
  | cons kv rest ih =>
    obtain ⟨a, b⟩ := kv
    by_cases h : a = k
    · subst h; simp [dictSet]
    · by_cases hk : k ∈ rest.map Prod.fst
      · simp [dictSet, h, ih, hk, Ne.symm h]
      · simp [dictSet, h, ih, hk, Ne.symm h]

theorem nodup_keys_dictSet {α : Type} {l : List (String × α)} (k : String)
    (v : α) (h : (l.map Prod.fst).Nodup) :
    ((dictSet l k v).map Prod.fst).Nodup := by
  rw [keys_dictSet]
  by_cases hk : k ∈ l.map Prod.fst
  · simpa [hk]
  · simp [hk, List.nodup_append, h]

theorem readConfig_dictSet (fs : ConfigFS) (p : String) (d : Descriptor) :
    readConfig (dictSet fs p d) p = d := by
  simp [readConfig, lookup_dictSet]

/-- Behaviour of the `info`-section rewrite loop of `update_config_file`
under `lookup`: the `payloadpath` value is rewritten, every other key is
copied verbatim. -/
theorem lookup_map_rewrite (l : ConfigSection) (f : String) (k : String) :
    (l.map (fun kv =>
        if kv.1 = "payloadpath"
          then (kv.1, os_path_join (os_path_dirname kv.2) f)
          else kv)).lookup k
      = if k = "payloadpath"
          then (l.lookup k).map (fun v => os_path_join (os_path_dirname v) f)
          else l.lookup k := by
  induction l with
  | nil => simp
  | cons kv rest ih =>
    obtain ⟨a, b⟩ := kv
    simp only [List.map_cons] at ih ⊢
    by_cases ha : a = "payloadpath"
    · subst ha
      by_cases hk : k = "payloadpath"
      · subst hk; simp [List.lookup_cons]
      · simp [lookup_cons_ne hk, ih, hk]
    · by_cases hk : k = a
      · subst hk
        simp [List.lookup_cons, ha]
      · simp [lookup_cons_ne hk, ih, ha]

/-- When `payloadpath` is not among the options, the rewrite loop copies
the `info` section unchanged. -/
theorem map_rewrite_eq_self (l : ConfigSection) (f : String)
    (h : l.lookup "payloadpath" = none) :
    l.map (fun kv =>
        if kv.1 = "payloadpath"
          then (kv.1, os_path_join (os_path_dirname kv.2) f)
          else kv) = l := by
  induction l with
  | nil => simp
  | cons kv rest ih =>
    obtain ⟨a, b⟩ := kv
    rw [List.lookup_cons] at h
    by_cases ha : "payloadpath" = a
    · subst ha; simp at h
    · rw [show (("payloadpath" : String) == a) = false by simp [ha]] at h
      simp only [List.map_cons, ih h]
      simp [Ne.symm ha]

/-- The join `os_path_join d f` always ends in `f`. -/
theorem os_path_join_ends (d f : String) :
    ∃ pre, os_path_join d f = pre ++ f := by
  unfold os_path_join
  by_cases h1 : strStartsWith f "/"
  · exact ⟨"", by simp [h1]⟩
  · by_cases h2 : d = "" || strEndsWith d "/"
    · exact ⟨d, by simp [h1, h2]⟩
    · exact ⟨d ++ "/", by simp [h1, h2, String.append_assoc]⟩

/-! Section: Claim theorems -/

/-- C1 counterexample.  The claim asserts write-then-replace atomic
persist semantics, so that a failed persist never leaves a corrupt
descriptor on disk.  On the code a persist failure is observed after
`open(config_path, 'wb')` has truncated the descriptor in place: the
failed run below leaves an empty (corrupt) descriptor at the original
path, although the original descriptor had both its sections.  The
in-memory entity is indeed unchanged. -/
theorem C1_atomicity_counterexample :
    update_payload_path tC1 "new.exe" true fsC1
      = (tC1, [("/pages/demo1/config.ini", ⟨[]⟩)], Except.error Err.ioError)
    ∧ readConfig fsC1 "/pages/demo1/config.ini" ≠ Descriptor.mk []
    ∧ readConfig [("/pages/demo1/config.ini", (⟨[]⟩ : Descriptor))]
        "/pages/demo1/config.ini" = Descriptor.mk [] :=
  ⟨rfl, by decide, rfl⟩

/-- C1 (amended).  If persisting the rewritten descriptor during
`update_payload_path` fails, the exception propagates and the in-memory
entity (`_payload`, `context`, `_context`, `_extra_files`) is unchanged;
but the persist step is an in-place truncating rewrite of the original
file, not an atomic write-then-replace: a failure between the truncating
open and a completed write leaves an empty descriptor at the original
path. -/
theorem C1_persist_failure_semantics :
    (∀ t f b fs t1 fs1 e,
        update_payload_path t f b fs = (t1, fs1, Except.error e) → t1 = t)
    ∧ (∀ t f fs infoOpts ctxOpts up,
        (readConfig fs t._config_path).sections.lookup "info" = some infoOpts →
        (readConfig fs t._config_path).sections.lookup "context" = some ctxOpts →
        ctxOpts.lookup "update_path" = some up →
        update_payload_path t f true fs
          = (t, dictSet fs t._config_path ⟨[]⟩, Except.error Err.ioError)) := by
  constructor
  · intro t f b fs t1 fs1 e h
    unfold update_payload_path at h
    rcases hu : update_config_file f t._config_path b fs with ⟨fsa, r⟩
    rw [hu] at h
    cases r with
    | error e2 => simp only [Prod.mk.injEq] at h; exact h.1.symm
    | ok u => simp at h
  · intro t f fs infoOpts ctxOpts up h1 h2 h3
    simp [update_payload_path, update_config_file, h1, h2, h3]

/-- Witness for C1: the amended statement applied to the concrete
template/file system of the counterexample. -/
theorem C1_persist_failure_witness :
    update_payload_path tC1 "other.exe" true fsC1
      = (tC1, dictSet fsC1 "/pages/demo1/config.ini" ⟨[]⟩,
          Except.error Err.ioError) :=
  C1_persist_failure_semantics.2 tC1 "other.exe" fsC1
    [("name", "Demo1"), ("description", "d"), ("payloadpath", "/pl/old.exe")]
    [("update_path", "/up/old.exe")] "/up/old.exe" rfl rfl rfl

/-- C2.  The claim fails on the code, and the code contradicts its
own docstring: `merge_context` on a freshly constructed entity raises
`AttributeError`, because `__init__` assigns `self.context` while
`merge_context` reads `self._context` (only ever assigned by
`update_payload_path`).  The last conjunct shows the merge the claim
describes (existing key wins, new key added) is exactly what the
`dict.update` line would compute once it could run. -/
theorem C2_merge_context_fresh_entity :
    PhishingTemplate.init "/pages" "html" "demo2" fsC2 = Except.ok tC2
    ∧ tC2.context = [("a", "1")]
    ∧ merge_context tC2 [("a", "2"), ("b", "3")] = Except.error Err.attributeError
    ∧ dictUpdate [("a", "2"), ("b", "3")] [("a", "1")] = [("a", "1"), ("b", "3")] :=
  ⟨rfl, rfl, rfl, rfl⟩

/-- C3.  The no-op side of the claim holds (empty or missing source:
no copy, no staging, `None` result), but the destination is wrong: the
code computes `self.static_path + filename` by plain string
concatenation, yielding `/pages/demo3/html/staticpayload.exe`, a sibling
of the static directory, not `/pages/demo3/html/static/payload.exe`
inside it. -/
theorem C3_use_file_destination :
    use_file tC3 fsC3 "/tmp/payload.exe"
      = ({ tC3 with _extra_files := ["/pages/demo3/html/staticpayload.exe"] },
          { files := ["/tmp/payload.exe", "/pages/demo3/html/staticpayload.exe"],
            undeletable := [] },
          some "payload.exe")
    ∧ os_path_join tC3.static_path "payload.exe"
        = "/pages/demo3/html/static/payload.exe"
    ∧ "/pages/demo3/html/staticpayload.exe"
        ≠ "/pages/demo3/html/static/payload.exe"
    ∧ use_file tC3 fsC3 "" = (tC3, fsC3, none)
    ∧ use_file tC3 fsC3 "/tmp/missing.exe" = (tC3, fsC3, none) :=
  ⟨rfl, rfl, by decide, rfl, rfl⟩

/-- C4 counterexample.  A descriptor whose `info` lacks `payloadpath`
but whose `context` has `update_path`: `update_config_file` succeeds and
silently persists a descriptor still lacking `payloadpath`, instead of
failing with a descriptor-error as the claim requires for both missing
keys. -/
theorem C4_missing_payloadpath_counterexample :
    (update_config_file "new.exe" "/pages/demo4/config.ini" false fsC4).2
      = Except.ok ()
    ∧ (config_section_map
          (update_config_file "new.exe" "/pages/demo4/config.ini" false fsC4).1
          "/pages/demo4/config.ini" "info").lookup "payloadpath" = none :=
  ⟨rfl, rfl⟩

/-- C4 (amended).  A descriptor lacking `context.update_path` (or the
whole `context` section) makes the operation fail with a descriptor-error
before anything is written; a descriptor lacking only `info.payloadpath`
does not fail: the rewrite is persisted with the `info` options copied
verbatim, still lacking `payloadpath`. -/
theorem C4_missing_key_behaviour :
    ∀ fs p f b infoOpts,
      (readConfig fs p).sections.lookup "info" = some infoOpts →
      (((readConfig fs p).sections.lookup "context" = none →
          update_config_file f p b fs = (fs, Except.error Err.noSection))
      ∧ (∀ ctxOpts,
          (readConfig fs p).sections.lookup "context" = some ctxOpts →
          ctxOpts.lookup "update_path" = none →
          update_config_file f p b fs = (fs, Except.error Err.noOption))
      ∧ (∀ ctxOpts up,
          (readConfig fs p).sections.lookup "context" = some ctxOpts →
          ctxOpts.lookup "update_path" = some up →
          infoOpts.lookup "payloadpath" = none →
          update_config_file f p false fs
            = (dictSet fs p
                ⟨[("info", infoOpts),
                  ("context",
                    [("update_path", os_path_join (os_path_dirname up) f)])]⟩,
                Except.ok ()))) := by
  intro fs p f b infoOpts hinfo
  refine ⟨?_, ?_, ?_⟩
  · intro hctx
    simp [update_config_file, hinfo, hctx]
  · intro ctxOpts hctx hup
    simp [update_config_file, hinfo, hctx, hup]
  · intro ctxOpts up hctx hup hpp
    simp [update_config_file, hinfo, hctx, hup, map_rewrite_eq_self infoOpts f hpp]

/-- Witness for C4: the amended statement applied to the concrete
descriptor of the counterexample. -/
theorem C4_missing_key_witness :
    update_config_file "new.exe" "/pages/demo4/config.ini" false fsC4
      = (dictSet fsC4 "/pages/demo4/config.ini"
          ⟨[("info", [("name", "Demo4"), ("description", "d")]),
            ("context",
              [("update_path",
                os_path_join (os_path_dirname "/up/old.exe") "new.exe")])]⟩,
          Except.ok ()) :=
  (C4_missing_key_behaviour fsC4 "/pages/demo4/config.ini" "new.exe" false
      [("name", "Demo4"), ("description", "d")] rfl).2.2
    [("update_path", "/up/old.exe")] "/up/old.exe" rfl rfl rfl

/-- C5.  After a successful `update_payload_path(f)`: the in-memory
payload (via `get_payload_path`) and the on-disk descriptor's
`info.payloadpath` both equal `dirname(old payloadpath)/f` (a string
ending in `f`), every other `info` key is copied verbatim, and
`_extra_files` is reset to empty. -/
theorem C5_update_payload_roundtrip :
    ∀ t f fs infoOpts old ctxOpts up,
      (readConfig fs t._config_path).sections.lookup "info" = some infoOpts →
      infoOpts.lookup "payloadpath" = some old →
      (readConfig fs t._config_path).sections.lookup "context" = some ctxOpts →
      ctxOpts.lookup "update_path" = some up →
      ((update_payload_path t f false fs).2.2 = Except.ok ()
      ∧ get_payload_path (update_payload_path t f false fs).1
          = PyVal.pyStr (os_path_join (os_path_dirname old) f)
      ∧ (config_section_map (update_payload_path t f false fs).2.1
            t._config_path "info").lookup "payloadpath"
          = some (os_path_join (os_path_dirname old) f)
      ∧ (∃ pre, os_path_join (os_path_dirname old) f = pre ++ f)
      ∧ (∀ k, k ≠ "payloadpath" →
          (config_section_map (update_payload_path t f false fs).2.1
              t._config_path "info").lookup k = infoOpts.lookup k)
      ∧ (update_payload_path t f false fs).1._extra_files = []) := by
  intro t f fs infoOpts old ctxOpts up hinfo hpp hctx hup
  have hu : update_config_file f t._config_path false fs
      = (dictSet fs t._config_path
          ⟨[("info", infoOpts.map (fun kv =>
                if kv.1 = "payloadpath"
                  then (kv.1, os_path_join (os_path_dirname kv.2) f)
                  else kv)),
            ("context",
              [("update_path", os_path_join (os_path_dirname up) f)])]⟩,
          Except.ok ()) := by
    simp [update_config_file, hinfo, hctx, hup]
  have hsec : config_section_map
      (dictSet fs t._config_path
        ⟨[("info", infoOpts.map (fun kv =>
              if kv.1 = "payloadpath"
                then (kv.1, os_path_join (os_path_dirname kv.2) f)
                else kv)),
          ("context",
            [("update_path", os_path_join (os_path_dirname up) f)])]⟩)
      t._config_path "info"
      = infoOpts.map (fun kv =>
          if kv.1 = "payloadpath"
            then (kv.1, os_path_join (os_path_dirname kv.2) f)
            else kv) := by
    simp [config_section_map, readConfig_dictSet]
  refine ⟨?_, ?_, ?_, os_path_join_ends _ _, ?_, ?_⟩
  · simp [update_payload_path, hu]
  · simp only [update_payload_path, hu, get_payload_path]
    rw [hsec, lookup_map_rewrite]
    simp [hpp]
  · simp only [update_payload_path, hu]
    rw [hsec, lookup_map_rewrite]
    simp [hpp]
  · intro k hk
    simp only [update_payload_path, hu]
    rw [hsec, lookup_map_rewrite]
    simp [hk]
  · simp [update_payload_path, hu]

/-- Witness for C5 on a concrete template and descriptor: the payload
path becomes `/pl/new.exe` in memory and on disk, the `name` key is
copied verbatim, and the staged-file list is reset. -/
theorem C5_update_payload_roundtrip_witness :
    (update_payload_path tC5 "new.exe" false fsC5).2.2 = Except.ok ()
    ∧ get_payload_path (update_payload_path tC5 "new.exe" false fsC5).1
        = PyVal.pyStr "/pl/new.exe"
    ∧ (config_section_map (update_payload_path tC5 "new.exe" false fsC5).2.1
          tC5._config_path "info").lookup "payloadpath" = some "/pl/new.exe"
    ∧ (config_section_map (update_payload_path tC5 "new.exe" false fsC5).2.1
          tC5._config_path "info").lookup "name" = some "Demo5"
    ∧ (update_payload_path tC5 "new.exe" false fsC5).1._extra_files = [] :=
  have h := C5_update_payload_roundtrip tC5 "new.exe" fsC5
    [("name", "Demo5"), ("description", "d"), ("payloadpath", "/pl/old.exe")]
    "/pl/old.exe" [("update_path", "/up/old.exe")] "/up/old.exe"
    rfl rfl rfl rfl
  ⟨h.1, h.2.1, h.2.2.1,
   (h.2.2.2.2.1 "name" (by decide)).trans rfl,
   h.2.2.2.2.2⟩

/-- C10.  When the descriptor's `info` lacks `payloadpath`, the
constructed entity's `get_payload_path` returns the Python literal
`False` (not `None` or a string); `has_payload` is the truthiness of the
stored value, so a present-but-empty `payloadpath` also yields a falsy
`has_payload`. -/
theorem C10_payload_accessors :
    (∀ pd hd name fs t,
        PhishingTemplate.init pd hd name fs = Except.ok t →
        (config_section_map fs
            (os_path_join (os_path_join pd name) "config.ini")
            "info").lookup "payloadpath" = none →
        get_payload_path t = PyVal.pyFalse)
    ∧ (∀ t, has_payload t = (get_payload_path t).truthy)
    ∧ (∀ pd hd name fs t,
        PhishingTemplate.init pd hd name fs = Except.ok t →
        (config_section_map fs
            (os_path_join (os_path_join pd name) "config.ini")
            "info").lookup "payloadpath" = some "" →
        has_payload t = false) := by
  refine ⟨?_, fun t => rfl, ?_⟩
  · intro pd hd name fs t h hpp
    simp only [PhishingTemplate.init] at h
    split at h
    · exact absurd h (by simp)
    · split at h
      · exact absurd h (by simp)
      · simp only [Except.ok.injEq] at h
        subst h
        simp [get_payload_path, hpp]
  · intro pd hd name fs t h hpp
    simp only [PhishingTemplate.init] at h
    split at h
    · exact absurd h (by simp)
    · split at h
      · exact absurd h (by simp)
      · simp only [Except.ok.injEq] at h
        subst h
        simp [has_payload, hpp, PyVal.truthy]

/-- Witness for C10 on concrete entities: `demo2` has no `payloadpath`,
`demo10` has an empty one. -/
theorem C10_payload_accessors_witness :
    get_payload_path tC2 = PyVal.pyFalse
    ∧ has_payload tC2 = (get_payload_path tC2).truthy
    ∧ has_payload tC10 = false :=
  ⟨C10_payload_accessors.1 "/pages" "html" "demo2" fsC2 tC2 rfl rfl,
   C10_payload_accessors.2.1 tC2,
   C10_payload_accessors.2.2 "/pages" "html" "demo10" fsC10 tC10 rfl rfl⟩

/-! Section: File-removal lemmas -/

theorem os_isfile_eq_true_iff (fs : FileSys) (p : String) :
    os_isfile fs p = true ↔ p ∈ fs.files := by
  simp [os_isfile]

theorem os_isfile_eq_false_iff (fs : FileSys) (p : String) :
    os_isfile fs p = false ↔ p ∉ fs.files := by
  simp [os_isfile]

theorem remove_files_go_not_mem :
    ∀ (l : List String) (fs : FileSys) (f : String),
      f ∉ fs.files → f ∉ (remove_files_go l fs).1.files := by
  intro l
  induction l with
  | nil => intro fs f h; exact h
  | cons g rest ih =>
    intro fs f h
    by_cases hg : os_isfile fs g = true
    · by_cases hu : g ∈ fs.undeletable
      · simpa [remove_files_go, hg, os_remove, hu] using h
      · have hf1 : f ∉ fs.files.erase g :=
          fun hmem => h (List.mem_of_mem_erase hmem)
        simpa [remove_files_go, hg, os_remove, hu] using
          ih { files := fs.files.erase g, undeletable := fs.undeletable } f hf1
    · simpa [remove_files_go, hg] using ih fs f h

theorem remove_files_go_success :
    ∀ (l : List String) (fs : FileSys),
      fs.files.Nodup →
      (remove_files_go l fs).2 = Except.ok () →
      ((∀ f ∈ l, f ∉ (remove_files_go l fs).1.files)
      ∧ (remove_files_go l fs).1.files.Nodup) := by
  intro l
  induction l with
  | nil => intro fs hnd _; exact ⟨by simp, hnd⟩
  | cons g rest ih =>
    intro fs hnd hok
    by_cases hg : os_isfile fs g = true
    · by_cases hu : g ∈ fs.undeletable
      · simp [remove_files_go, hg, os_remove, hu] at hok
      · have hstep : remove_files_go (g :: rest) fs
            = remove_files_go rest
                { files := fs.files.erase g, undeletable := fs.undeletable } := by
          simp [remove_files_go, hg, os_remove, hu]
        rw [hstep] at hok ⊢
        have hnd1 : (fs.files.erase g).Nodup := hnd.erase g
        have hrec := ih { files := fs.files.erase g, undeletable := fs.undeletable }
          hnd1 hok
        refine ⟨?_, hrec.2⟩
        intro f hf
        rcases List.mem_cons.mp hf with rfl | hf2
        · have hner : f ∉ fs.files.erase f := fun hmem =>
            (by simp [List.Nodup.mem_erase_iff hnd] at hmem)
          exact remove_files_go_not_mem rest _ f hner
        · exact hrec.1 f hf2
    · have hstep : remove_files_go (g :: rest) fs = remove_files_go rest fs := by
        simp [remove_files_go, hg]
      rw [hstep] at hok ⊢
      have hrec := ih fs hnd hok
      refine ⟨?_, hrec.2⟩
      intro f hf
      rcases List.mem_cons.mp hf with rfl | hf2
      · have hner : f ∉ fs.files := (os_isfile_eq_false_iff fs f).mp
          (by revert hg; cases os_isfile fs f <;> simp)
        exact remove_files_go_not_mem rest fs f hner
      · exact hrec.1 f hf2

theorem remove_files_go_all_missing :
    ∀ (l : List String) (fs : FileSys),
      (∀ f ∈ l, os_isfile fs f = false) →
      remove_files_go l fs = (fs, Except.ok ()) := by
  intro l
  induction l with
  | nil => intro fs _; rfl
  | cons g rest ih =>
    intro fs h
    have hg : os_isfile fs g = false := h g (by simp)
    have hrest := ih fs (fun f hf => h f (by simp [hf]))
    simp [remove_files_go, hg, hrest]

theorem on_exit_not_mem :
    ∀ (ts : List (String × PhishingTemplate)) (fs : FileSys) (f : String),
      f ∉ fs.files → f ∉ (on_exit ts fs).1.files := by
  intro ts
  induction ts with
  | nil => intro fs f h; exact h
  | cons q rest ih =>
    intro fs f h
    obtain ⟨n, t⟩ := q
    have h1 := remove_files_go_not_mem t._extra_files fs f h
    rcases hgo : remove_files_go t._extra_files fs with ⟨fs1, r⟩
    rw [hgo] at h1
    cases r with
    | error e => simpa [on_exit, remove_extra_files, hgo] using h1
    | ok u =>
      cases u
      simpa [on_exit, remove_extra_files, hgo] using ih fs1 f h1

theorem on_exit_success_cleans :
    ∀ (ts : List (String × PhishingTemplate)) (fs : FileSys),
      fs.files.Nodup →
      (on_exit ts fs).2 = Except.ok () →
      ∀ p ∈ ts, ∀ f ∈ p.2._extra_files, f ∉ (on_exit ts fs).1.files := by
  intro ts
  induction ts with
  | nil => intro fs _ _ p hp; simp at hp
  | cons q rest ih =>
    intro fs hnd hok p hp f hf
    obtain ⟨n, t⟩ := q
    rcases hgo : remove_files_go t._extra_files fs with ⟨fs1, r⟩
    cases r with
    | error e => simp [on_exit, remove_extra_files, hgo] at hok
    | ok u =>
      cases u
      have hstep : on_exit ((n, t) :: rest) fs = on_exit rest fs1 := by
        simp [on_exit, remove_extra_files, hgo]
      rw [hstep] at hok ⊢
      have hga := remove_files_go_success t._extra_files fs hnd
        (by rw [hgo])
      rw [hgo] at hga
      rcases List.mem_cons.mp hp with rfl | hp2
      · exact on_exit_not_mem rest fs1 f (hga.1 f hf)
      · exact ih fs1 hga.2 hok p hp2 f hf

/-- C6.  After one successful `use_file`, `remove_extra_files` deletes
the staged file exactly once; a second invocation raises no error and
changes nothing (existence is re-checked, a missing file is skipped); the
method never clears `_extra_files`.  The second part: when no entry still
exists, the whole call is a no-op returning success. -/
theorem C6_remove_extra_files_idempotent :
    (∀ t0 fs0 p0 t fs fn,
        use_file t0 fs0 p0 = (t, fs, some fn) →
        t0._extra_files = [] →
        fs.files.Nodup →
        (t0.static_path ++ fn) ∉ fs.undeletable →
        ((remove_extra_files t fs).2.1.files
            = fs.files.erase (t0.static_path ++ fn)
        ∧ (remove_extra_files t fs).2.2 = Except.ok ()
        ∧ remove_extra_files t (remove_extra_files t fs).2.1
            = (t, (remove_extra_files t fs).2.1, Except.ok ())
        ∧ (remove_extra_files t fs).1._extra_files
            = [t0.static_path ++ fn]))
    ∧ (∀ t fs, (∀ f ∈ t._extra_files, os_isfile fs f = false) →
        remove_extra_files t fs = (t, fs, Except.ok ())) := by
  constructor
  · intro t0 fs0 p0 t fs fn h h0 hnd hund
    unfold use_file at h
    split at h
    case isTrue hcond =>
      simp only [Prod.mk.injEq, Option.some.injEq] at h
      obtain ⟨ht, hfs, hfn⟩ := h
      subst ht; subst hfs; subst hfn
      set dst := t0.static_path ++ os_path_basename p0 with hdst
      set fsc := copyfile fs0 p0 dst with hfsc
      have hmem : dst ∈ fsc.files := by
        rw [hfsc]
        by_cases hc : dst ∈ fs0.files
        · simp [copyfile, hc]
        · simp [copyfile, hc]
      have hext : ({ t0 with
          _extra_files := t0._extra_files ++ [dst] } : PhishingTemplate)._extra_files
          = [dst] := by simp [h0]
      have hisf : os_isfile fsc dst = true := (os_isfile_eq_true_iff fsc dst).mpr hmem
      have hrun : remove_files_go [dst] fsc
          = ({ files := fsc.files.erase dst, undeletable := fsc.undeletable },
             Except.ok ()) := by
        simp [remove_files_go, hisf, os_remove, hund]
      have hfirst : remove_extra_files
          { t0 with _extra_files := t0._extra_files ++ [dst] } fsc
          = ({ t0 with _extra_files := t0._extra_files ++ [dst] },
             { files := fsc.files.erase dst, undeletable := fsc.undeletable },
             Except.ok ()) := by
        simp [remove_extra_files, h0, hrun]
      have hgone : dst ∉ fsc.files.erase dst := fun hmem2 =>
        (by simp [List.Nodup.mem_erase_iff hnd] at hmem2)
      have hsecond : remove_files_go [dst]
          { files := fsc.files.erase dst, undeletable := fsc.undeletable }
          = ({ files := fsc.files.erase dst, undeletable := fsc.undeletable },
             Except.ok ()) := by
        apply remove_files_go_all_missing
        intro f hf
        have hfd : f = dst := List.mem_singleton.mp hf
        subst hfd
        exact (os_isfile_eq_false_iff _ dst).mpr hgone
      refine ⟨by rw [hfirst], by rw [hfirst], ?_, by rw [hfirst]; exact hext⟩
      rw [hfirst]
      simp [remove_extra_files, h0, hsecond]
    case isFalse hcond => simp at h
  · intro t fs h
    have := remove_files_go_all_missing t._extra_files fs h
    simp [remove_extra_files, this]

/-- Witness for C6: stage `/tmp/extra.bin` into the `demo6` template,
then clean up twice. -/
theorem C6_remove_extra_files_witness :
    ((remove_extra_files
        { tC6 with _extra_files := ["/pages/demo6/html/staticextra.bin"] }
        { files := ["/tmp/extra.bin", "/pages/demo6/html/staticextra.bin"],
          undeletable := [] }).2.1.files
      = ["/tmp/extra.bin"]
    ∧ (remove_extra_files
        { tC6 with _extra_files := ["/pages/demo6/html/staticextra.bin"] }
        { files := ["/tmp/extra.bin", "/pages/demo6/html/staticextra.bin"],
          undeletable := [] }).2.2 = Except.ok ()
    ∧ remove_extra_files
        { tC6 with _extra_files := ["/pages/demo6/html/staticextra.bin"] }
        (remove_extra_files
          { tC6 with _extra_files := ["/pages/demo6/html/staticextra.bin"] }
          { files := ["/tmp/extra.bin", "/pages/demo6/html/staticextra.bin"],
            undeletable := [] }).2.1
      = ({ tC6 with _extra_files := ["/pages/demo6/html/staticextra.bin"] },
         (remove_extra_files
           { tC6 with _extra_files := ["/pages/demo6/html/staticextra.bin"] }
           { files := ["/tmp/extra.bin", "/pages/demo6/html/staticextra.bin"],
             undeletable := [] }).2.1,
         Except.ok ())
    ∧ (remove_extra_files
        { tC6 with _extra_files := ["/pages/demo6/html/staticextra.bin"] }
        { files := ["/tmp/extra.bin", "/pages/demo6/html/staticextra.bin"],
          undeletable := [] }).1._extra_files
      = ["/pages/demo6/html/staticextra.bin"]) :=
  C6_remove_extra_files_idempotent.1 tC6 fsC6 "/tmp/extra.bin"
    { tC6 with _extra_files := ["/pages/demo6/html/staticextra.bin"] }
    { files := ["/tmp/extra.bin", "/pages/demo6/html/staticextra.bin"],
      undeletable := [] }
    "extra.bin" rfl rfl (by decide) (by decide)

/-- C7.  The validator checks its three rules in order with
short-circuit on the first failure (no `config.ini` entry, unlistable
assets directory, no `.html` entry) and returns `(true, name)` when all
pass.  It is a pure function of the directory layout, so it has no side
effects and repeated calls agree by construction (last conjunct). -/
theorem C7_is_valid_template_rules :
    ∀ dirs td name hd entries,
      dirs (os_path_join td name) = some entries →
      ((entries.contains "config.ini" = false →
          is_valid_template dirs td name hd
            = Except.ok (false, "Configuration file not found in: "))
      ∧ (entries.contains "config.ini" = true →
          dirs (os_path_join (os_path_join td name) hd) = none →
          is_valid_template dirs td name hd
            = Except.ok (false, "No " ++ hd ++ " directory found in: "))
      ∧ (∀ tdir, entries.contains "config.ini" = true →
          dirs (os_path_join (os_path_join td name) hd) = some tdir →
          ((tdir.any (fun tfile => strEndsWith tfile ".html") = true →
              is_valid_template dirs td name hd = Except.ok (true, name))
          ∧ (tdir.any (fun tfile => strEndsWith tfile ".html") = false →
              is_valid_template dirs td name hd
                = Except.ok (false, "No HTML files found in: "))))
      ∧ is_valid_template dirs td name hd
          = is_valid_template dirs td name hd) := by
  intro dirs td name hd entries he
  refine ⟨?_, ?_, ?_, rfl⟩
  · intro hc
    have hc2 : "config.ini" ∉ entries := by simpa using hc
    simp [is_valid_template, he, hc2]
  · intro hc hassets
    have hc2 : "config.ini" ∈ entries := by simpa using hc
    simp [is_valid_template, he, hc2, hassets]
  · intro tdir hc hassets
    have hc2 : "config.ini" ∈ entries := by simpa using hc
    constructor
    · intro hh
      have hh2 : ∃ x ∈ tdir, strEndsWith x ".html" = true := by simpa using hh
      simp [is_valid_template, he, hc2, hassets, hh2]
    · intro hh
      have hh2 : ¬∃ x ∈ tdir, strEndsWith x ".html" = true := by simpa using hh
      simp [is_valid_template, he, hc2, hassets, hh2]

/-- Witness for C7: a fully valid template directory passes. -/
theorem C7_is_valid_template_witness :
    is_valid_template dirsC7 "/root" "tpl" "html" = Except.ok (true, "tpl") :=
  ((C7_is_valid_template_rules dirsC7 "/root" "tpl" "html"
      ["config.ini", "html"] rfl).2.2.1 ["index.html"] rfl rfl).1 rfl

/-! Section: Discovery lemmas -/

theorem find_user_go_not_mem_of_lookup :
    ∀ (dirs : Dirs) (templates : List (String × PhishingTemplate))
      (td hd foo : String),
      (templates.lookup foo).isSome →
      ∀ (names acc l : List String),
        foo ∉ acc →
        find_user_go dirs templates td hd names acc = Except.ok l →
        foo ∉ l := by
  intro dirs templates td hd foo hfoo names
  induction names with
  | nil =>
    intro acc l hacc h
    simp only [find_user_go, Except.ok.injEq] at h
    subst h; exact hacc
  | cons name rest ih =>
    intro acc l hacc h
    simp only [find_user_go] at h
    split at h
    case isTrue hguard =>
      split at h
      case h_1 => exact absurd h (by simp)
      case h_2 =>
        have hnone : (templates.lookup name).isNone = true :=
          (Bool.and_eq_true _ _ |>.mp hguard).2
        have hne : foo ≠ name := by
          intro hfe
          subst hfe
          rw [Option.isNone_iff_eq_none] at hnone
          rw [hnone] at hfoo
          simp at hfoo
        refine ih (acc ++ [name]) l ?_ h
        simp [hacc, hne]
      case h_3 => exact ih acc l hacc h
    case isFalse => exact ih acc l hacc h

theorem add_user_go_lookup_preserved :
    ∀ (td hd : String) (cfs : ConfigFS) (foo : String) (names : List String)
      (ts ts1 : List (String × PhishingTemplate)),
      foo ∉ names →
      add_user_go td hd cfs names ts = Except.ok ts1 →
      ts1.lookup foo = ts.lookup foo := by
  intro td hd cfs foo names
  induction names with
  | nil =>
    intro ts ts1 _ h
    simp only [add_user_go, Except.ok.injEq] at h
    subst h; rfl
  | cons name rest ih =>
    intro ts ts1 hnm h
    have hsplit : foo ≠ name ∧ foo ∉ rest := by simpa [not_or] using hnm
    simp only [add_user_go] at h
    split at h
    case h_1 => exact absurd h (by simp)
    case h_2 t heq =>
      rw [ih (dictSet ts name t) ts1 hsplit.2 h]
      exact lookup_dictSet_ne ts t hsplit.1

theorem add_user_go_nodup :
    ∀ (td hd : String) (cfs : ConfigFS) (names : List String)
      (ts ts1 : List (String × PhishingTemplate)),
      add_user_go td hd cfs names ts = Except.ok ts1 →
      (ts.map Prod.fst).Nodup → (ts1.map Prod.fst).Nodup := by
  intro td hd cfs names
  induction names with
  | nil =>
    intro ts ts1 h hnd
    simp only [add_user_go, Except.ok.injEq] at h
    subst h; exact hnd
  | cons name rest ih =>
    intro ts ts1 h hnd
    simp only [add_user_go] at h
    split at h
    case h_1 => exact absurd h (by simp)
    case h_2 t heq => exact ih (dictSet ts name t) ts1 h (nodup_keys_dictSet name t hnd)

/-- C8.  Re-running discovery on a registry already holding `foo`
never returns `foo` from `find_user_templates` (so no second entity is
ever constructed for it), and after `add_user_templates` the stored
entity for `foo` is the original one; keys stay unique. -/
theorem C8_registry_dedup :
    ∀ (dirs : Dirs) (cfs : ConfigFS)
      (templates : List (String × PhishingTemplate)) (td hd foo : String)
      (e : PhishingTemplate),
      templates.lookup foo = some e →
      ((∀ l, find_user_templates dirs templates td hd = Except.ok l → foo ∉ l)
      ∧ (∀ ts1, add_user_templates dirs cfs templates td hd = Except.ok ts1 →
          (ts1.lookup foo = some e
          ∧ ((templates.map Prod.fst).Nodup → (ts1.map Prod.fst).Nodup)))) := by
  intro dirs cfs templates td hd foo e he
  have hfoo : (templates.lookup foo).isSome := by simp [he]
  have hpart1 : ∀ l, find_user_templates dirs templates td hd = Except.ok l →
      foo ∉ l := by
    intro l h
    unfold find_user_templates at h
    rcases hroot : dirs td with _ | names
    · rw [hroot] at h; exact absurd h (by simp)
    · rw [hroot] at h
      exact find_user_go_not_mem_of_lookup dirs templates td hd foo hfoo names
        [] l (by simp) h
  refine ⟨hpart1, ?_⟩
  intro ts1 h
  unfold add_user_templates at h
  rcases hfind : find_user_templates dirs templates td hd with e2 | user
  · rw [hfind] at h; exact absurd h (by simp)
  · rw [hfind] at h
    have hnotin : foo ∉ user := hpart1 user hfind
    constructor
    · rw [add_user_go_lookup_preserved td hd cfs foo user templates ts1 hnotin h]
      exact he
    · intro hnd
      exact add_user_go_nodup td hd cfs user templates ts1 h hnd

/-- Witness for C8 on a concrete registry: root lists `foo` (already
registered) and `bar` (new); discovery returns only `bar` and `foo`
keeps its original entity. -/
theorem C8_registry_dedup_witness :
    "foo" ∉ ["bar"]
    ∧ [("foo", eC8), ("bar", barC8)].lookup "foo" = some eC8
    ∧ ((["foo", "bar"] : List String).Nodup) :=
  ⟨(C8_registry_dedup dirsC8 cfsC8 [("foo", eC8)] "/root" "html" "foo" eC8
      rfl).1 ["bar"] rfl,
   ((C8_registry_dedup dirsC8 cfsC8 [("foo", eC8)] "/root" "html" "foo" eC8
      rfl).2 [("foo", eC8), ("bar", barC8)] rfl).1,
   ((C8_registry_dedup dirsC8 cfsC8 [("foo", eC8)] "/root" "html" "foo" eC8
      rfl).2 [("foo", eC8), ("bar", barC8)] rfl).2 (by decide)⟩

/-- C9 counterexample.  One undeletable staged file aborts the whole
cleanup: with entity `t1` (staged `/s/a`, undeletable) before entity `t2`
(staged `/s/b`, deletable), `on_exit` raises and `/s/b` survives, and the
cleanup of `t2` alone would have removed it; within a single entity the
failure on `/s/a` likewise leaves the later `/s/c` in place.  This
contradicts the claim that delete failures are swallowed per-file. -/
theorem C9_on_exit_counterexample :
    on_exit [("t1", e1C9), ("t2", e2C9)] fsC9 = (fsC9, Except.error Err.osError)
    ∧ os_isfile fsC9 "/s/b" = true
    ∧ remove_extra_files e2C9 { files := ["/s/b"], undeletable := [] }
        = (e2C9, { files := [], undeletable := [] }, Except.ok ())
    ∧ on_exit [("t3", e3C9)] fsC9b = (fsC9b, Except.error Err.osError)
    ∧ os_isfile fsC9b "/s/c" = true :=
  ⟨rfl, rfl, rfl, rfl, rfl⟩

/-- C9 (amended).  `on_exit` invokes `remove_extra_files` on each
entity in turn, and only a *missing* staged file is tolerated: any other
delete failure propagates out of `remove_extra_files` and `on_exit`,
aborting cleanup of the remaining files and entities.  When every
deletion succeeds, every staged file of every entity is gone
afterwards. -/
theorem C9_on_exit_propagation :
    (∀ n t rest fs fs1 e,
        remove_extra_files t fs = (t, fs1, Except.error e) →
        on_exit ((n, t) :: rest) fs = (fs1, Except.error e))
    ∧ (∀ ts fs, fs.files.Nodup →
        (on_exit ts fs).2 = Except.ok () →
        ∀ p ∈ ts, ∀ f ∈ p.2._extra_files,
          os_isfile (on_exit ts fs).1 f = false) := by
  constructor
  · intro n t rest fs fs1 e h
    have hgo : remove_files_go t._extra_files fs = (fs1, Except.error e) := by
      have h2 := congrArg (fun x => x.2) h
      simpa [remove_extra_files] using h2
    simp [on_exit, remove_extra_files, hgo]
  · intro ts fs hnd hok p hp f hf
    exact (os_isfile_eq_false_iff _ f).mpr
      (on_exit_success_cleans ts fs hnd hok p hp f hf)

/-- Witness for C9: the abort at the concrete undeletable file, and a
fully successful cleanup removing the staged file. -/
theorem C9_on_exit_witness :
    on_exit [("t1", e1C9)] fsC9 = (fsC9, Except.error Err.osError)
    ∧ os_isfile (on_exit [("t2", e2C9)]
        { files := ["/s/b"], undeletable := [] }).1 "/s/b" = false :=
  ⟨C9_on_exit_propagation.1 "t1" e1C9 [] fsC9 fsC9 Err.osError rfl,
   C9_on_exit_propagation.2 [("t2", e2C9)]
     { files := ["/s/b"], undeletable := [] } (by decide) rfl
     ("t2", e2C9) (by simp) "/s/b" (by simp [e2C9])⟩

end Hackwifi
